import Mathlib

/-!
Verification of the `motor-commands` codec (files `bionic_commands.py` and
`bionic_responses.py`).

Shallow-embedding conventions:
* Python `int` is `Int` (arbitrary precision, two's-complement bitwise ops);
  byte strings are `List Nat` with entries in `[0, 256)`.
* Python float arithmetic is modelled as exact rational arithmetic over `ℚ`;
  `math.pi` is embedded as the exact value of the IEEE-754 double constant.
* A Python function that may raise an exception is embedded as returning
  `Except PyErr α`; the error constructor records which exception class the
  Python runtime would raise (`IndexError`, `KeyError`, `struct.error`).
* A decoded 32-bit IEEE-754 float field is represented by its 32-bit
  big-endian bit pattern (a `Nat`); no claim depends on the real value of a
  decoded float.
-/

/-- Exception classes this code can raise: `IndexError` (sequence index out of
range), `KeyError` (dict lookup miss), `struct.error` (wrong buffer size for
`struct.unpack`). -/
inductive PyErr
  | indexError
  | keyError
  | structError
  deriving DecidableEq, Repr

instance {e a : Type} [DecidableEq e] [DecidableEq a] : DecidableEq (Except e a) := fun x y =>
  match x, y with
  | Except.ok v, Except.ok w =>
      if h : v = w then Decidable.isTrue (by rw [h]) else Decidable.isFalse (by simp [h])
  | Except.error u, Except.error t =>
      if h : u = t then Decidable.isTrue (by rw [h]) else Decidable.isFalse (by simp [h])
  | Except.ok _, Except.error _ => Decidable.isFalse (by simp)
  | Except.error _, Except.ok _ => Decidable.isFalse (by simp)

/-- Python `msg[i]` on a bytes object: the byte, or `IndexError` when out of
range (the source never uses negative indices). -/
def pyIndex (msg : List Nat) (i : Nat) : Except PyErr Nat :=
  match msg.get? i with
  | some b => Except.ok b
  | none => Except.error PyErr.indexError

/-- Python slice `msg[a:b]` on a bytes object (never raises; clips to the
available range). -/
def pySlice (msg : List Nat) (a b : Nat) : List Nat :=
  (msg.take b).drop a

/-- Python `int.from_bytes(bs, "big")` (also the 3.11+ default byte order when
the argument is omitted, as at `msg[5:7]` in `position_message`). -/
def from_bytes_big (bs : List Nat) : Nat :=
  bs.foldl (fun acc b => acc * 256 + b) 0

/-- Python dict lookup `m[k]`: the value, or `KeyError` when the key is
absent. -/
def dictGet (m : Nat → Option String) (k : Nat) : Except PyErr String :=
  match m k with
  | some v => Except.ok v
  | none => Except.error PyErr.keyError

/-- Python `struct.unpack("!f", bs)[0]`: requires exactly 4 bytes
(`struct.error` otherwise); the decoded float is represented by its 32-bit
big-endian bit pattern. -/
def unpack_f32_big (bs : List Nat) : Except PyErr Nat :=
  if bs.length = 4 then Except.ok (from_bytes_big bs) else Except.error PyErr.structError

/-- Python `int(x)` on a float: truncation toward zero. -/
def py_int (q : ℚ) : Int :=
  if 0 ≤ q then ⌊q⌋ else ⌈q⌉

/-- The IEEE-754 double value of CPython's `math.pi`,
`3.141592653589793115997963…`, as an exact rational. -/
def PY_MATH_PI : ℚ := 884279719003555 / 281474976710656

/-- Python `math.radians(deg) = deg * (pi / 180)`. -/
def radians (deg : ℚ) : ℚ := deg * (PY_MATH_PI / 180)

/-! Source: `bionic_commands.py`, bitwise helpers. -/

/-- Source `push_bits` (`bionic_commands.py:13-16`):
`value <<= num_bits; value |= data & ((1 << num_bits) - 1)`.
Python `<<` on arbitrary-precision ints is multiplication by `2 ^ num_bits`;
`&` and `|` are two's-complement bitwise ops (`Int.land` / `Int.lor`). -/
def push_bits (value : Int) (data : Int) (num_bits : Nat) : Int :=
  Int.lor (value * 2 ^ num_bits) (Int.land data (2 ^ num_bits - 1))

/-- Round to nearest integer, ties to even (the IEEE-754 default used by
`struct.pack("f", x)`). -/
def round_half_even (q : ℚ) : Int :=
  let f := ⌊q⌋
  if q - f < 1 / 2 then f
  else if q - f > 1 / 2 then f + 1
  else if f % 2 = 0 then f else f + 1

/-- IEEE-754 binary32 bit pattern of a rational, rounding to nearest / ties to
even, overflowing to infinity: models `struct.unpack("I", struct.pack("f", x))[0]`
(the rational never encodes a NaN, and `-0.0` cannot arise from `ℚ`). -/
def float32_bits (q : ℚ) : Nat :=
  if q = 0 then 0
  else
    let sign : Nat := if q < 0 then 1 else 0
    let a : ℚ := |q|
    let e : Int := max (Int.log 2 a) (-126)
    let m : Int := round_half_even (a * 2 ^ (23 - e))
    let em : Int × Int := if m = 2 ^ 24 then (e + 1, 2 ^ 23) else (e, m)
    if em.1 > 127 then sign * 2 ^ 31 + 255 * 2 ^ 23
    else if em.2 < 2 ^ 23 then sign * 2 ^ 31 + em.2.toNat
    else sign * 2 ^ 31 + (em.1 + 127).toNat * 2 ^ 23 + (em.2.toNat - 2 ^ 23)

/-- Source `push_fp32_bits` (`bionic_commands.py:19-22`). -/
def push_fp32_bits (value : Int) (data : ℚ) : Int :=
  push_bits value (float32_bits data) 32

/-- The `for i in range(length)` loop of `split_into_bytes`: collect
`command & 0xFF` and shift `command >>= 8` each iteration (Python `>> 8` on an
int is floor division by `2 ^ 8`, `& 0xFF` is the nonnegative remainder). -/
def split_loop : Int → Nat → List Int
  | _, 0 => []
  | c, n + 1 => Int.emod c 256 :: split_loop (Int.fdiv c 256) n

/-- Source `split_into_bytes` (`bionic_commands.py:25-32`): low-order bytes
first, then reversed when `little_endian` is true (the Python default). -/
def split_into_bytes (command : Int) (length : Nat) (little_endian : Bool) : List Int :=
  let bytes_list := split_loop command length
  if little_endian then bytes_list.reverse else bytes_list

/-! Source: `bionic_commands.py`, command encoders.  Python default arguments
are passed explicitly in this embedding; defaulted call sites spell out the
default values. -/

/-- Source `set_position_control` (`bionic_commands.py:40-67`); defaults
`motor_mode = 1`, `max_speed = 60.0`, `max_current = 5.0`,
`message_return = 0`; 8-byte output. -/
def set_position_control (position : ℚ) (motor_mode : Int) (max_speed : ℚ)
    (max_current : ℚ) (message_return : Int) : List Int :=
  let command : Int := 0
  let command := push_bits command motor_mode 3
  let command := push_fp32_bits command position
  let command := push_bits command (py_int (max_speed * 10)) 15
  let command := push_bits command (py_int (max_current * 10)) 12
  let command := push_bits command message_return 2
  split_into_bytes command 8 true

/-- Source `set_speed_control` (`bionic_commands.py:70-95`); defaults
`motor_mode = 2`, `current = 5.0`, `message_return = 0`; 7-byte output. -/
def set_speed_control (speed : ℚ) (motor_mode : Int) (current : ℚ)
    (message_return : Int) : List Int :=
  let command : Int := 0
  let command := push_bits command motor_mode 3
  let command := push_bits command 0 3
  let command := push_bits command message_return 2
  let command := push_fp32_bits command speed
  let command := push_bits command (py_int (current * 10)) 16
  split_into_bytes command 7 true

/-- Source `set_current_torque_control` (`bionic_commands.py:98-124`); defaults
`control_status = 0`, `motor_mode = 3`, `message_return = 0`; 3-byte output
(the `value` parameter is annotated `int` but Python does not enforce it, and
`int(value * 10)` is again truncation toward zero). -/
def set_current_torque_control (value : ℚ) (control_status : Int)
    (motor_mode : Int) (message_return : Int) : List Int :=
  let command : Int := 0
  let command := push_bits command motor_mode 3
  let command := push_bits command control_status 3
  let command := push_bits command message_return 2
  let command := push_bits command (py_int (value * 10)) 16
  split_into_bytes command 3 true

/-- Source `set_zero_position` (`bionic_commands.py:127-144`): packs the motor
id split into high/low bytes, a zero byte, and terminator `3`; 4-byte output
(Python `motor_id >> 8` floors, `motor_id & 0xFF` is the nonnegative
remainder). -/
def set_zero_position (motor_id : Int) : List Int :=
  let upper := Int.fdiv motor_id 256
  let lower := Int.emod motor_id 256
  let command : Int := 0
  let command := push_bits command upper 8
  let command := push_bits command lower 8
  let command := push_bits command 0 8
  let command := push_bits command 3 8
  split_into_bytes command 4 true

/-- Source `get_motor_pos` (`bionic_commands.py:152-164`); 2-byte output. -/
def get_motor_pos : List Int :=
  let command : Int := 0
  let command := push_bits command 0x7 3
  let command := push_bits command 0x0 5
  let command := push_bits command 0x1 8
  split_into_bytes command 2 true

/-- Source `get_motor_speed` (`bionic_commands.py:167-179`); 2-byte output. -/
def get_motor_speed : List Int :=
  let command : Int := 0
  let command := push_bits command 0x7 3
  let command := push_bits command 0x0 5
  let command := push_bits command 0x2 8
  split_into_bytes command 2 true

/-- Source `get_motor_current` (`bionic_commands.py:182-194`); 2-byte output. -/
def get_motor_current : List Int :=
  let command : Int := 0
  let command := push_bits command 0x7 3
  let command := push_bits command 0x0 5
  let command := push_bits command 0x3 8
  split_into_bytes command 2 true

/-- Source `get_motor_power` (`bionic_commands.py:197-209`); 2-byte output. -/
def get_motor_power : List Int :=
  let command : Int := 0
  let command := push_bits command 0x7 3
  let command := push_bits command 0x0 5
  let command := push_bits command 0x4 8
  split_into_bytes command 2 true

/-- Nested helper `degrees_to_int` of `force_position_hybrid_control`
(`bionic_commands.py:233-234`):
`max(0, min(65536, int(((math.radians(degrees) + 12.5) / 25.0) * 65536)))`. -/
def degrees_to_int (degrees : ℚ) : Int :=
  max 0 (min 65536 (py_int ((radians degrees + 12.5) / 25 * 65536)))

/-- Nested helper `rpm_to_int` (`bionic_commands.py:236-237`):
`max(0, min(4095, int(((rpm + 18.0) / 36.0) * 4095)))`. -/
def rpm_to_int (rpm : ℚ) : Int :=
  max 0 (min 4095 (py_int ((rpm + 18) / 36 * 4095)))

/-- Nested helper `torque_to_int` (`bionic_commands.py:239-240`):
`max(0, min(4095, int(((torque + 150) / 300) * 4095)))`. -/
def torque_to_int (torque : ℚ) : Int :=
  max 0 (min 4095 (py_int ((torque + 150) / 300 * 4095)))

/-- Source `force_position_hybrid_control` (`bionic_commands.py:217-249`);
8-byte output (`torque_ff` is annotated `int` but Python does not enforce it;
the surrounding `int(...)` on already-integer helper results is the identity). -/
def force_position_hybrid_control (kp kd position speed torque_ff : ℚ) : List Int :=
  let command : Int := 0
  let command := push_bits command 0 3
  let command := push_bits command (py_int (kp * 4095 / 500)) 12
  let command := push_bits command (py_int (kd * 511 / 5)) 9
  let command := push_bits command (degrees_to_int position) 16
  let command := push_bits command (rpm_to_int speed) 12
  let command := push_bits command (torque_to_int torque_ff) 12
  split_into_bytes command 8 true

/-! Source: `bionic_responses.py`. -/

/-- Source `ERROR_MAP` (`bionic_responses.py:7-15`); note the gap at key 5. -/
def ERROR_MAP : Nat → Option String
  | 0 => some "No Errors"
  | 1 => some "Motor Overheating"
  | 2 => some "Motor Overcurrent"
  | 3 => some "Motor Voltage too low"
  | 4 => some "Motor Encoder Error"
  | 6 => some "Motor brake voltage too high"
  | 7 => some "DRV Driver Error"
  | _ => none

/-- Source `QUERY_MAP` (`bionic_responses.py:18`). -/
def QUERY_MAP : Nat → Option String
  | 0 => some "Reserved"
  | 1 => some "Angle"
  | 2 => some "Speed"
  | 3 => some "Current"
  | 4 => some "Power"
  | 5 => some "Accel"
  | 6 => some "Current Flux"
  | _ => none

/-- Source `CONFIG_MAP` (`bionic_responses.py:21-26`). -/
def CONFIG_MAP : Nat → Option String
  | 0 => some "Reserved"
  | 1 => some "Configuring System Acceleration"
  | 2 => some "Configuring Flux Observation Gain"
  | 3 => some "Configuring Damping Coefficient"
  | _ => none

/-- Source `CONFIG_STATUS_MAP` (`bionic_responses.py:28`). -/
def CONFIG_STATUS_MAP : Nat → Option String
  | 0 => some "Failure"
  | 1 => some "Success"
  | _ => none

/-- Source `get_message_type` (`bionic_responses.py:31-36`): the
`for i in range(1, 6)` loop comparing `msg[0] >> 5` with each `i` is unrolled;
`msg[0]` raises `IndexError` on an empty payload. -/
def get_message_type (msg : List Nat) : Except PyErr Int := do
  let t := (← pyIndex msg 0) >>> 5
  if t = 1 then return 1
  if t = 2 then return 2
  if t = 3 then return 3
  if t = 4 then return 4
  if t = 5 then return 5
  return -1

/-- Result dict of `position_speed_message` (message type 1). -/
structure PosSpeedResult where
  messageType : Int
  error : String
  position : ℚ
  speed : ℚ
  current : ℚ
  temperature : ℚ
  mos : ℚ
  deriving DecidableEq, Repr

/-- Result dict of `position_message` (message type 2); `position` is the
32-bit big-endian bit pattern of the decoded float. -/
structure PositionResult where
  messageType : Int
  error : String
  position : Nat
  current : ℚ
  temperature : ℚ
  deriving DecidableEq, Repr

/-- Result dict of `speed_message` (message type 3); `speed` is the 32-bit
big-endian bit pattern of the decoded float. -/
structure SpeedResult where
  messageType : Int
  error : String
  speed : Nat
  current : ℚ
  temperature : ℚ
  deriving DecidableEq, Repr

/-- Result dict of `configuration_message` (message type 4). -/
structure ConfigResult where
  messageType : Int
  error : String
  configurationCode : String
  configurationStatus : String
  deriving DecidableEq, Repr

/-- Result dict of `custom_message` (message type 5); `data` is the 32-bit
big-endian bit pattern of the decoded float. -/
structure CustomResult where
  messageType : Int
  error : String
  queryCode : String
  data : Nat
  deriving DecidableEq, Repr

/-- The heterogeneous dicts returned by the five extractors, as a sum. -/
inductive DecodeResult
  | posSpeed (r : PosSpeedResult)
  | position (r : PositionResult)
  | speed (r : SpeedResult)
  | config (r : ConfigResult)
  | custom (r : CustomResult)
  deriving DecidableEq, Repr

/-- Source `position_speed_message` (`bionic_responses.py:39-81`), message
type 1.  The body first computes `motor_temp = (msg[6] - 50) / 2` and
`motor_mos_temp = (msg[7] - 50) / 2` and then applies the helpers
`get_temp` / `get_mos_temp` (`(data - 50.0) / 2.0`) to those values again;
the dict is built in source order, so the `ERROR_MAP[error]` lookup runs after
all byte accesses. -/
def position_speed_message (msg : List Nat) : Except PyErr PosSpeedResult := do
  let error := (← pyIndex msg 0) &&& 0x1F
  let motor_pos := from_bytes_big (pySlice msg 1 3)
  let motor_speed := from_bytes_big (pySlice msg 3 5) >>> 4
  let motor_current := from_bytes_big (pySlice msg 4 6) &&& 0xFFF
  let motor_temp : ℚ := ((← pyIndex msg 6 : Nat) - 50) / 2
  let motor_mos_temp : ℚ := ((← pyIndex msg 7 : Nat) - 50) / 2
  let errStr ← dictGet ERROR_MAP error
  return { messageType := 1
           error := errStr
           position := (motor_pos : ℚ) * (25 / 65536) - 12.5
           speed := (motor_speed : ℚ) * (36 / 4095) - 18
           current := (motor_current : ℚ) * (140 / 4095) - 70
           temperature := (motor_temp - 50) / 2
           mos := (motor_mos_temp - 50) / 2 }

/-- Source `position_message` (`bionic_responses.py:84-117`), message type 2:
`get_position` is the identity on the unpacked float, `get_current` divides by
10, `get_temp` maps the raw byte `msg[7]` through `(data - 50.0) / 2.0`. -/
def position_message (msg : List Nat) : Except PyErr PositionResult := do
  let error := (← pyIndex msg 0) &&& 0x1F
  let motor_pos ← unpack_f32_big (pySlice msg 1 5)
  let motor_current := from_bytes_big (pySlice msg 5 7)
  let motor_temp ← pyIndex msg 7
  let errStr ← dictGet ERROR_MAP error
  return { messageType := 2
           error := errStr
           position := motor_pos
           current := (motor_current : ℚ) / 10
           temperature := ((motor_temp : ℚ) - 50) / 2 }

/-- Source `speed_message` (`bionic_responses.py:120-152`), message type 3;
same layout as type 2 with the float field named speed. -/
def speed_message (msg : List Nat) : Except PyErr SpeedResult := do
  let error := (← pyIndex msg 0) &&& 0x1F
  let motor_speed ← unpack_f32_big (pySlice msg 1 5)
  let motor_current := from_bytes_big (pySlice msg 5 7)
  let motor_temp ← pyIndex msg 7
  let errStr ← dictGet ERROR_MAP error
  return { messageType := 3
           error := errStr
           speed := motor_speed
           current := (motor_current : ℚ) / 10
           temperature := ((motor_temp : ℚ) - 50) / 2 }

/-- Source `configuration_message` (`bionic_responses.py:155-176`), message
type 4; the dict is built in source order (error, then configuration code,
then status), fixing which `KeyError` surfaces first. -/
def configuration_message (msg : List Nat) : Except PyErr ConfigResult := do
  let error := (← pyIndex msg 0) &&& 0x1F
  let configuration_code ← pyIndex msg 1
  let configuration_status ← pyIndex msg 2
  let errStr ← dictGet ERROR_MAP error
  let codeStr ← dictGet CONFIG_MAP configuration_code
  let statusStr ← dictGet CONFIG_STATUS_MAP configuration_status
  return { messageType := 4
           error := errStr
           configurationCode := codeStr
           configurationStatus := statusStr }

/-- Source `custom_message` (`bionic_responses.py:179-195`), message type 5:
`struct.unpack("!f", bytes(msg[2:]))` runs before the dict is built, so a
wrong-sized tail raises `struct.error` before any `KeyError`. -/
def custom_message (msg : List Nat) : Except PyErr CustomResult := do
  let error := (← pyIndex msg 0) &&& 0x1F
  let query_code ← pyIndex msg 1
  let data ← unpack_f32_big (msg.drop 2)
  let errStr ← dictGet ERROR_MAP error
  let queryStr ← dictGet QUERY_MAP query_code
  return { messageType := 5
           error := errStr
           queryCode := queryStr
           data := data }

/-- Source `valid_message` (`bionic_responses.py:207-217`):
`get_message_type(msg) in MESSAGE_MAP`, whose keys are 1..5. -/
def valid_message (msg : List Nat) : Except PyErr Bool := do
  let t ← get_message_type msg
  return t = 1 ∨ t = 2 ∨ t = 3 ∨ t = 4 ∨ t = 5

/-- Source `read_result` (`bionic_responses.py:220-233`): classify, then
dispatch through `MESSAGE_MAP` (`bionic_responses.py:198-204`); returns `None`
(`Except.ok none`) for an unrecognized type. -/
def read_result (msg : List Nat) : Except PyErr (Option DecodeResult) := do
  let message_type ← get_message_type msg
  if message_type = 1 then return some (DecodeResult.posSpeed (← position_speed_message msg))
  if message_type = 2 then return some (DecodeResult.position (← position_message msg))
  if message_type = 3 then return some (DecodeResult.speed (← speed_message msg))
  if message_type = 4 then return some (DecodeResult.config (← configuration_message msg))
  if message_type = 5 then return some (DecodeResult.custom (← custom_message msg))
  return none

/-- Temperature field of a decode result, for the message types that have one. -/
def result_temperature : DecodeResult → Option ℚ
  | DecodeResult.posSpeed r => some r.temperature
  | DecodeResult.position r => some r.temperature
  | DecodeResult.speed r => some r.temperature
  | _ => none

/-- Payload length each extractor needs to run without raising: 8 bytes for
types 1-3, 3 for type 4, and exactly 6 for type 5 (any other type-5 length
fails the `struct.unpack` size check). -/
def required_len : Int → Nat
  | 1 => 8
  | 2 => 8
  | 3 => 8
  | 4 => 3
  | 5 => 6
  | _ => 0

/-- Round half up: `round` on `ℚ` as the floor of `q + 1/2`. -/
def round_half_up (q : ℚ) : Int :=
  ⌊q + 1 / 2⌋

/-- Modelled from the spec: the PD-hybrid speed conversion as the spec words
it, `clamp(0,4095, round((rpm+18.0)/36.0 * 4095))` with a true rounding
(the value 113.75 arising at the counterexample input is not a tie, so every
standard tie-breaking convention agrees on it). -/
def rpm_to_int_spec (rpm : ℚ) : Int :=
  max 0 (min 4095 (round_half_up ((rpm + 18) / 36 * 4095)))

/-! Helper lemmas. -/

theorem except_ok_bind {a b : Type} (v : a) (f : a → Except PyErr b) :
    (Except.ok v >>= f) = f v := rfl

theorem except_error_bind {a b : Type} (e : PyErr) (f : a → Except PyErr b) :
    (Except.error e >>= f : Except PyErr b) = Except.error e := rfl

theorem except_pure {a : Type} (v : a) : (pure v : Except PyErr a) = Except.ok v := rfl

theorem pyIndex_none {msg : List Nat} {i : Nat} (h : msg.length ≤ i) :
    pyIndex msg i = Except.error PyErr.indexError := by
  unfold pyIndex
  rw [List.get?_eq_none.mpr h]

theorem pyIndex_ok {msg : List Nat} {i : Nat} (h : i < msg.length) :
    ∃ x, pyIndex msg i = Except.ok x := by
  unfold pyIndex
  rw [List.get?_eq_get h]
  exact ⟨_, rfl⟩

/-- Evaluation of the classifier on any nonempty payload: the tag when the top
3 bits of byte 0 are 1-5, else the sentinel `-1`. -/
theorem get_message_type_cons (b0 : Nat) (rest : List Nat) :
    get_message_type (b0 :: rest) =
      Except.ok (if 1 ≤ b0 >>> 5 ∧ b0 >>> 5 ≤ 5 then (b0 >>> 5 : Int) else -1) := by
  unfold get_message_type
  rw [show pyIndex (b0 :: rest) 0 = Except.ok b0 from rfl, except_ok_bind]
  by_cases h1 : b0 >>> 5 = 1
  · simp [except_pure, except_ok_bind, h1]
  by_cases h2 : b0 >>> 5 = 2
  · simp [except_pure, except_ok_bind, h1, h2]
  by_cases h3 : b0 >>> 5 = 3
  · simp [except_pure, except_ok_bind, h1, h2, h3]
  by_cases h4 : b0 >>> 5 = 4
  · simp [except_pure, except_ok_bind, h1, h2, h3, h4]
  by_cases h5 : b0 >>> 5 = 5
  · simp [except_pure, except_ok_bind, h1, h2, h3, h4, h5]
  · have hno : ¬(1 ≤ b0 >>> 5 ∧ b0 >>> 5 ≤ 5) := by omega
    simp [except_pure, except_ok_bind, h1, h2, h3, h4, h5, hno]

/-- Masking with an all-ones word is reduction mod a power of two (`ℕ`). -/
theorem nat_and_mask (n : Nat) (w : Nat) : n &&& (2 ^ w - 1) = n % 2 ^ w := by
  apply Nat.eq_of_testBit_eq
  intro i
  by_cases h : i < w <;>
    simp [Nat.testBit_and, Nat.testBit_two_pow_sub_one, Nat.testBit_mod_two_pow, h]

/-- Two's-complement `&` with an all-ones word is the nonnegative remainder mod
the corresponding power of two, for ints of either sign (Python masking
semantics). -/
theorem int_land_mask (w : Nat) : ∀ d : Int, Int.land d (2 ^ w - 1) = d % 2 ^ w := by
  induction w with
  | zero =>
      intro d
      have h0 : (2 : Int) ^ 0 - 1 = 0 := by norm_num
      have h1 : (2 : Int) ^ 0 = 1 := by norm_num
      rw [h0, h1, Int.emod_one]
      cases d with
      | ofNat n =>
          show (Int.ofNat (n &&& 0) : Int) = 0
          simp
      | negSucc m =>
          show (Int.ofNat (Nat.ldiff 0 m) : Int) = 0
          have hz : Nat.ldiff 0 m = 0 := by
            apply Nat.eq_of_testBit_eq
            intro i
            simp [Nat.testBit_ldiff]
          simp [hz]
  | succ w ih =>
      intro d
      have hmask : (2 ^ (w + 1) - 1 : Int) = Int.bit true (2 ^ w - 1) := by
        simp [Int.bit_val]
        ring
      have hbit := Int.bit_decomp d
      conv_lhs => rw [← hbit]
      rw [hmask, Int.land_bit, Bool.and_true, ih, Int.bit_val]
      have hd := Int.bodd_add_div2 d
      have hq := Int.ediv_add_emod d.div2 (2 ^ w)
      have hc01 : (cond d.bodd 1 0 : Int) = 0 ∨ (cond d.bodd 1 0 : Int) = 1 := by
        cases d.bodd <;> simp
      have hr0 : (0 : Int) ≤ d.div2 % 2 ^ w := Int.emod_nonneg _ (by positivity)
      have hr1 : d.div2 % 2 ^ w < 2 ^ w := Int.emod_lt_of_pos _ (by positivity)
      have hbpos : (0 : Int) < 2 ^ (w + 1) := by positivity
      have hsum : (2 * (d.div2 % 2 ^ w) + cond d.bodd 1 0) + 2 ^ (w + 1) * (d.div2 / 2 ^ w) = d := by
        linear_combination hd + 2 * hq
      have h0 : (0 : Int) ≤ 2 * (d.div2 % 2 ^ w) + cond d.bodd 1 0 := by
        rcases hc01 with h | h <;> rw [h] <;> linarith
      have h1 : 2 * (d.div2 % 2 ^ w) + cond d.bodd 1 0 < 2 ^ (w + 1) := by
        have hps : (2 : Int) ^ (w + 1) = 2 * 2 ^ w := by ring
        rcases hc01 with h | h <;> rw [h, hps] <;> linarith
      exact (((Int.ediv_emod_unique hbpos).mpr ⟨hsum, h0, h1⟩).2).symm

/-- Bitwise or of values with disjoint bit ranges is addition (`ℕ`). -/
theorem nat_or_disjoint (a b w : Nat) (hb : b < 2 ^ w) : a * 2 ^ w ||| b = a * 2 ^ w + b := by
  apply Nat.eq_of_testBit_eq
  intro i
  rw [mul_comm a (2 ^ w), Nat.testBit_or, Nat.testBit_mul_pow_two,
    Nat.testBit_mul_pow_two_add a hb]
  by_cases h : i < w
  · simp [h, Nat.not_le.mpr h]
  · have hw : w ≤ i := Nat.not_lt.mp h
    have hbi : b < 2 ^ i := lt_of_lt_of_le hb (Nat.pow_le_pow_right (by norm_num) hw)
    simp [h, hw, Nat.testBit_lt_two_pow hbi]

/-- Arithmetic characterization of `push_bits` for a nonnegative accumulator:
shift up by the field width, then add the field value reduced mod `2 ^ width`. -/
theorem push_bits_eq (a d : Int) (w : Nat) (ha : 0 ≤ a) :
    push_bits a d w = a * 2 ^ w + d % 2 ^ w := by
  unfold push_bits
  rw [int_land_mask]
  obtain ⟨n, rfl⟩ := Int.eq_ofNat_of_zero_le ha
  have hnn : (0 : Int) ≤ d % 2 ^ w := Int.emod_nonneg d (by positivity)
  have hlt : d % 2 ^ w < 2 ^ w := Int.emod_lt_of_pos d (by positivity)
  obtain ⟨b, hbeq⟩ := Int.eq_ofNat_of_zero_le hnn
  rw [hbeq]
  have hblt : b < 2 ^ w := by
    have := hbeq ▸ hlt
    exact_mod_cast this
  have hcast : ((n : Int)) * 2 ^ w = ((n * 2 ^ w : Nat) : Int) := by push_cast; ring
  rw [hcast]
  have hlor : ∀ x y : Nat, Int.lor (x : Int) (y : Int) = ((x ||| y : Nat) : Int) := fun _ _ => rfl
  rw [hlor, nat_or_disjoint n b w hblt]
  push_cast
  ring

/-- `push_bits` keeps the accumulator nonnegative. -/
theorem push_bits_nonneg (a d : Int) (w : Nat) (ha : 0 ≤ a) : 0 ≤ push_bits a d w := by
  rw [push_bits_eq a d w ha]
  have h1 : (0 : Int) ≤ d % 2 ^ w := Int.emod_nonneg d (by positivity)
  have h2 : (0 : Int) ≤ a * 2 ^ w := by positivity
  linarith

/-- Iterated Euclidean division composes, for positive divisors. -/
theorem int_ediv_ediv (a m n : Int) (hm : 0 < m) (hn : 0 < n) :
    a / m / n = a / (m * n) := by
  have hmn : (0 : Int) < m * n := mul_pos hm hn
  have h1 : a = a % (m * n) + m * (n * (a / (m * n))) := by
    linear_combination -Int.ediv_add_emod a (m * n)
  have hz : a % (m * n) / m / n = 0 := by
    apply Int.ediv_eq_zero_of_lt
    · exact Int.ediv_nonneg (Int.emod_nonneg a (ne_of_gt hmn)) hm.le
    · rw [Int.ediv_lt_iff_lt_mul hm, mul_comm n m]
      exact Int.emod_lt_of_pos a hmn
  calc a / m / n
      = (a % (m * n) + m * (n * (a / (m * n)))) / m / n := by rw [← h1]
    _ = (a % (m * n) / m + n * (a / (m * n))) / n := by
        rw [Int.add_mul_ediv_left _ _ (ne_of_gt hm)]
    _ = a % (m * n) / m / n + a / (m * n) := by
        rw [Int.add_mul_ediv_left _ _ (ne_of_gt hn)]
    _ = a / (m * n) := by rw [hz, zero_add]

/-- One byte of the split loop: position `i` holds `command / 256 ^ i % 256`
(Python `>>` is flooring, which for the positive divisor `256` agrees with
Euclidean division). -/
theorem split_loop_eq (n : Nat) : ∀ c : Int,
    split_loop c n = (List.range n).map (fun i => c / 256 ^ i % 256) := by
  induction n with
  | zero => intro c; simp [split_loop]
  | succ n ih =>
      intro c
      rw [List.range_succ_eq_map]
      show Int.emod c 256 :: split_loop (Int.fdiv c 256) n = _
      rw [ih (Int.fdiv c 256)]
      rw [List.map_cons, List.map_map]
      congr 1
      · show c % 256 = c / 256 ^ 0 % 256
        norm_num
      · apply List.map_congr_left
        intro i _
        show Int.fdiv c 256 / 256 ^ i % 256 = c / 256 ^ (i + 1) % 256
        rw [Int.fdiv_eq_ediv c (by norm_num)]
        rw [int_ediv_ediv c 256 (256 ^ i) (by norm_num) (by positivity)]
        rw [← pow_succ' 256 i]

theorem split_loop_length (n : Nat) (c : Int) : (split_loop c n).length = n := by
  rw [split_loop_eq]
  simp

theorem split_into_bytes_length (c : Int) (n : Nat) (le : Bool) :
    (split_into_bytes c n le).length = n := by
  unfold split_into_bytes
  cases le <;> simp [split_loop_length]

/-- Contents of `split_into_bytes`: least-significant byte first when the flag
is false, most-significant byte first (the low-first list reversed) when it is
true. -/
theorem split_into_bytes_eq (c : Int) (n : Nat) :
    split_into_bytes c n false = (List.range n).map (fun i => c / 256 ^ i % 256) ∧
    split_into_bytes c n true = ((List.range n).map (fun i => c / 256 ^ i % 256)).reverse := by
  constructor <;> simp [split_into_bytes, split_loop_eq]

/-- The 8-byte big-endian serialization, written out bytewise. -/
theorem split_into_bytes_eight (c : Int) : split_into_bytes c 8 true =
    [c / 256 ^ 7 % 256, c / 256 ^ 6 % 256, c / 256 ^ 5 % 256, c / 256 ^ 4 % 256,
     c / 256 ^ 3 % 256, c / 256 ^ 2 % 256, c / 256 ^ 1 % 256, c / 256 ^ 0 % 256] := by
  rw [(split_into_bytes_eq c 8).2]
  rfl

/-! Claim theorems. -/

/-- C1 (counterexample): the claim says an undefined error code (low 5 bits of
byte 0, e.g. code 5) yields an explicit "unknown error code" result rather
than a lookup fault; in fact decoding the 8-byte type-1 payload
`[0x25, 0, 0, 0, 0, 0, 0, 0]` (error code 5) raises `KeyError` from the
`ERROR_MAP[error]` lookup and returns no result at all. -/
theorem C1_counterexample_unknown_code_raises :
    read_result [0x25, 0, 0, 0, 0, 0, 0, 0] = Except.error PyErr.keyError ∧
    ¬ ∃ r, read_result [0x25, 0, 0, 0, 0, 0, 0, 0] = Except.ok r := by
  have hmain : read_result [0x25, 0, 0, 0, 0, 0, 0, 0] = Except.error PyErr.keyError := by
    have hex : position_speed_message [0x25, 0, 0, 0, 0, 0, 0, 0] =
        Except.error PyErr.keyError := by
      unfold position_speed_message
      simp [pyIndex, dictGet, ERROR_MAP, except_ok_bind, except_pure, except_error_bind]
    have hgm : get_message_type [0x25, 0, 0, 0, 0, 0, 0, 0] = Except.ok 1 := by
      unfold get_message_type
      simp [pyIndex, except_ok_bind, except_pure]
    unfold read_result
    rw [hgm, except_ok_bind]
    simp [except_ok_bind, except_pure, except_error_bind, hex]
  refine ⟨hmain, ?_⟩
  rintro ⟨r, hr⟩
  rw [hmain] at hr
  exact absurd hr (by simp)

/-- C1 (amended): for every payload of a known type with that type's required
length whose low-5-bit error code is not in the 0-7 table, `read_result`
raises `KeyError` (an uncaught dict-lookup fault), rather than returning an
explicit "unknown error code" result and rather than defaulting to code 0. -/
theorem C1_unknown_error_code_keyError (b0 b1 b2 b3 b4 b5 b6 b7 : Nat)
    (hE : ERROR_MAP (b0 &&& 0x1F) = none) :
    (1 ≤ b0 >>> 5 → b0 >>> 5 ≤ 3 →
      read_result [b0, b1, b2, b3, b4, b5, b6, b7] = Except.error PyErr.keyError) ∧
    (b0 >>> 5 = 4 → read_result [b0, b1, b2] = Except.error PyErr.keyError) ∧
    (b0 >>> 5 = 5 →
      read_result [b0, b1, b2, b3, b4, b5] = Except.error PyErr.keyError) := by
  refine ⟨?_, ?_, ?_⟩
  · intro hlo hhi
    have h123 : b0 >>> 5 = 1 ∨ b0 >>> 5 = 2 ∨ b0 >>> 5 = 3 := by omega
    rcases h123 with h | h | h
    all_goals
      have hgm : get_message_type [b0, b1, b2, b3, b4, b5, b6, b7] =
          Except.ok ((b0 >>> 5 : Nat) : Int) := by
        unfold get_message_type
        simp [pyIndex, except_ok_bind, except_pure, h]
    · have hex : position_speed_message [b0, b1, b2, b3, b4, b5, b6, b7] =
          Except.error PyErr.keyError := by
        unfold position_speed_message
        simp [pyIndex, except_ok_bind, except_pure, dictGet, hE, except_error_bind]
      unfold read_result
      rw [hgm, except_ok_bind]
      simp [h, except_ok_bind, except_pure, except_error_bind, hex]
    · have hex : position_message [b0, b1, b2, b3, b4, b5, b6, b7] =
          Except.error PyErr.keyError := by
        unfold position_message
        simp [pyIndex, pySlice, unpack_f32_big, except_ok_bind, except_pure, dictGet, hE,
          except_error_bind]
      unfold read_result
      rw [hgm, except_ok_bind]
      simp [h, except_ok_bind, except_pure, except_error_bind, hex]
    · have hex : speed_message [b0, b1, b2, b3, b4, b5, b6, b7] =
          Except.error PyErr.keyError := by
        unfold speed_message
        simp [pyIndex, pySlice, unpack_f32_big, except_ok_bind, except_pure, dictGet, hE,
          except_error_bind]
      unfold read_result
      rw [hgm, except_ok_bind]
      simp [h, except_ok_bind, except_pure, except_error_bind, hex]
  · intro h
    have hgm : get_message_type [b0, b1, b2] = Except.ok 4 := by
      unfold get_message_type
      simp [pyIndex, except_ok_bind, except_pure, h]
    have hex : configuration_message [b0, b1, b2] = Except.error PyErr.keyError := by
      unfold configuration_message
      simp [pyIndex, except_ok_bind, except_pure, dictGet, hE, except_error_bind]
    unfold read_result
    rw [hgm, except_ok_bind]
    simp [except_ok_bind, except_pure, except_error_bind, hex]
  · intro h
    have hgm : get_message_type [b0, b1, b2, b3, b4, b5] = Except.ok 5 := by
      unfold get_message_type
      simp [pyIndex, except_ok_bind, except_pure, h]
    have hex : custom_message [b0, b1, b2, b3, b4, b5] = Except.error PyErr.keyError := by
      unfold custom_message
      simp [pyIndex, unpack_f32_big, except_ok_bind, except_pure, dictGet, hE,
        except_error_bind]
    unfold read_result
    rw [hgm, except_ok_bind]
    simp [except_ok_bind, except_pure, except_error_bind, hex]

/-- C1 (witness): the amended claim instantiated at the 8-byte type-1 payload
with error code 5. -/
theorem C1_unknown_error_code_keyError_witness :
    read_result [0x25, 0, 0, 0, 0, 0, 0, 0] = Except.error PyErr.keyError :=
  (C1_unknown_error_code_keyError 0x25 0 0 0 0 0 0 0 (by decide)).1 (by decide) (by decide)

/-- C2 (counterexample): the claim says classification never indexes out of
bounds and a zero-length payload classifies as unrecognized (`-1`); in fact
`get_message_type` evaluates `msg[0]` unconditionally and the empty payload
raises `IndexError` instead of returning `-1`. -/
theorem C2_counterexample_empty_payload :
    get_message_type [] = Except.error PyErr.indexError ∧
    get_message_type [] ≠ Except.ok (-1) := by
  constructor
  · rfl
  · intro h
    exact absurd h (by decide)

/-- C2 (amended): on every payload of at least one byte, `get_message_type`
returns the tag `1`-`5` when the top 3 bits of byte 0 match a known type and
the sentinel `-1` otherwise, without further byte accesses; the zero-length
payload instead raises `IndexError`. -/
theorem C2_classification_nonempty (b0 : Nat) (rest : List Nat) :
    get_message_type (b0 :: rest) =
      Except.ok (if 1 ≤ b0 >>> 5 ∧ b0 >>> 5 ≤ 5 then (b0 >>> 5 : Int) else -1) :=
  get_message_type_cons b0 rest

/-- C3 (counterexample): the claim says a payload shorter than its type's
required length fails with an explicit "insufficient data" error result; in
fact the 7-byte type-1 payload `[0x20, 0, 0, 0, 0, 0, 0]` raises an uncaught
`IndexError` (at `msg[7]`), returning no result at all. -/
theorem C3_counterexample_short_type1 :
    read_result [0x20, 0, 0, 0, 0, 0, 0] = Except.error PyErr.indexError ∧
    ¬ ∃ r, read_result [0x20, 0, 0, 0, 0, 0, 0] = Except.ok r := by
  have hmain : read_result [0x20, 0, 0, 0, 0, 0, 0] = Except.error PyErr.indexError := by
    have hex : position_speed_message [0x20, 0, 0, 0, 0, 0, 0] =
        Except.error PyErr.indexError := by
      unfold position_speed_message
      simp [pyIndex, except_ok_bind, except_pure, except_error_bind]
    have hgm : get_message_type [0x20, 0, 0, 0, 0, 0, 0] = Except.ok 1 := by
      unfold get_message_type
      simp [pyIndex, except_ok_bind, except_pure]
    unfold read_result
    rw [hgm, except_ok_bind]
    simp [except_ok_bind, except_pure, except_error_bind, hex]
  refine ⟨hmain, ?_⟩
  rintro ⟨r, hr⟩
  rw [hmain] at hr
  exact absurd hr (by simp)

/-- C3 (amended): for every payload whose classified message type is known but
whose length is shorter than that type requires (8 bytes for types 1-3, 3 for
type 4, 6 for type 5), decoding raises an uncaught exception (`IndexError` or
`struct.error`) — `read_result` produces an error, not a result; no access
past the end of the buffer occurs, but no explicit "insufficient data" result
is returned either. -/
theorem C3_short_payload_raises (msg : List Nat) (t : Int)
    (hgm : get_message_type msg = Except.ok t) (ht : 1 ≤ t)
    (hlen : msg.length < required_len t) :
    ∃ e, read_result msg = Except.error e := by
  obtain ⟨b0, rest, rfl⟩ : ∃ b0 rest, msg = b0 :: rest := by
    cases msg with
    | nil =>
        rw [show get_message_type [] = Except.error PyErr.indexError from rfl] at hgm
        exact absurd hgm (by simp)
    | cons b0 rest => exact ⟨b0, rest, rfl⟩
  rw [get_message_type_cons] at hgm
  have htv : t = (if 1 ≤ b0 >>> 5 ∧ b0 >>> 5 ≤ 5 then (b0 >>> 5 : Int) else -1) := by
    exact (Except.ok.inj hgm).symm
  have hin : 1 ≤ b0 >>> 5 ∧ b0 >>> 5 ≤ 5 := by
    by_contra hno
    rw [if_neg hno] at htv
    omega
  rw [if_pos hin] at htv
  have hcase : b0 >>> 5 = 1 ∨ b0 >>> 5 = 2 ∨ b0 >>> 5 = 3 ∨ b0 >>> 5 = 4 ∨ b0 >>> 5 = 5 := by
    omega
  have hlc : (b0 :: rest).length = rest.length + 1 := rfl
  have hgm2 : get_message_type (b0 :: rest) = Except.ok ((b0 >>> 5 : Nat) : Int) := by
    rw [get_message_type_cons, if_pos hin]
  rcases hcase with h | h | h | h | h
  · have hlen8 : (b0 :: rest).length < 8 := by
      rw [htv, h] at hlen
      simpa [required_len] using hlen
    refine ⟨PyErr.indexError, ?_⟩
    have hex : position_speed_message (b0 :: rest) = Except.error PyErr.indexError := by
      unfold position_speed_message
      rw [show pyIndex (b0 :: rest) 0 = Except.ok b0 from rfl, except_ok_bind]
      by_cases h6 : (b0 :: rest).length ≤ 6
      · rw [pyIndex_none h6, except_error_bind]
      · obtain ⟨x, hx⟩ := pyIndex_ok (show 6 < (b0 :: rest).length by omega)
        rw [hx, except_ok_bind]
        rw [pyIndex_none (show (b0 :: rest).length ≤ 7 by omega), except_error_bind]
    unfold read_result
    rw [hgm2, except_ok_bind]
    simp [h, except_ok_bind, except_pure, except_error_bind, hex]
  · have hlen8 : (b0 :: rest).length < 8 := by
      rw [htv, h] at hlen
      simpa [required_len] using hlen
    have hex : ∃ e, position_message (b0 :: rest) = Except.error e := by
      unfold position_message
      rw [show pyIndex (b0 :: rest) 0 = Except.ok b0 from rfl, except_ok_bind]
      by_cases h5 : (b0 :: rest).length < 5
      · refine ⟨PyErr.structError, ?_⟩
        have hslice : (pySlice (b0 :: rest) 1 5).length ≠ 4 := by
          simp [pySlice]
          simp [hlc] at h5 hlen8
          omega
        unfold unpack_f32_big
        rw [if_neg hslice, except_error_bind]
      · refine ⟨PyErr.indexError, ?_⟩
        have hslice : (pySlice (b0 :: rest) 1 5).length = 4 := by
          simp [pySlice]
          simp [hlc] at h5 hlen8
          omega
        unfold unpack_f32_big
        rw [if_pos hslice, except_ok_bind]
        rw [pyIndex_none (show (b0 :: rest).length ≤ 7 by omega), except_error_bind]
    obtain ⟨e, he⟩ := hex
    refine ⟨e, ?_⟩
    unfold read_result
    rw [hgm2, except_ok_bind]
    simp [h, except_ok_bind, except_pure, except_error_bind, he]
  · have hlen8 : (b0 :: rest).length < 8 := by
      rw [htv, h] at hlen
      simpa [required_len] using hlen
    have hex : ∃ e, speed_message (b0 :: rest) = Except.error e := by
      unfold speed_message
      rw [show pyIndex (b0 :: rest) 0 = Except.ok b0 from rfl, except_ok_bind]
      by_cases h5 : (b0 :: rest).length < 5
      · refine ⟨PyErr.structError, ?_⟩
        have hslice : (pySlice (b0 :: rest) 1 5).length ≠ 4 := by
          simp [pySlice]
          simp [hlc] at h5 hlen8
          omega
        unfold unpack_f32_big
        rw [if_neg hslice, except_error_bind]
      · refine ⟨PyErr.indexError, ?_⟩
        have hslice : (pySlice (b0 :: rest) 1 5).length = 4 := by
          simp [pySlice]
          simp [hlc] at h5 hlen8
          omega
        unfold unpack_f32_big
        rw [if_pos hslice, except_ok_bind]
        rw [pyIndex_none (show (b0 :: rest).length ≤ 7 by omega), except_error_bind]
    obtain ⟨e, he⟩ := hex
    refine ⟨e, ?_⟩
    unfold read_result
    rw [hgm2, except_ok_bind]
    simp [h, except_ok_bind, except_pure, except_error_bind, he]
  · have hlen3 : (b0 :: rest).length < 3 := by
      rw [htv, h] at hlen
      simpa [required_len] using hlen
    refine ⟨PyErr.indexError, ?_⟩
    have hex : configuration_message (b0 :: rest) = Except.error PyErr.indexError := by
      unfold configuration_message
      rw [show pyIndex (b0 :: rest) 0 = Except.ok b0 from rfl, except_ok_bind]
      by_cases h1 : (b0 :: rest).length ≤ 1
      · rw [pyIndex_none h1, except_error_bind]
      · obtain ⟨x, hx⟩ := pyIndex_ok (show 1 < (b0 :: rest).length by omega)
        rw [hx, except_ok_bind]
        rw [pyIndex_none (show (b0 :: rest).length ≤ 2 by omega), except_error_bind]
    unfold read_result
    rw [hgm2, except_ok_bind]
    simp [h, except_ok_bind, except_pure, except_error_bind, hex]
  · have hlen6 : (b0 :: rest).length < 6 := by
      rw [htv, h] at hlen
      simpa [required_len] using hlen
    have hex : ∃ e, custom_message (b0 :: rest) = Except.error e := by
      unfold custom_message
      rw [show pyIndex (b0 :: rest) 0 = Except.ok b0 from rfl, except_ok_bind]
      by_cases h1 : (b0 :: rest).length ≤ 1
      · refine ⟨PyErr.indexError, ?_⟩
        rw [pyIndex_none h1, except_error_bind]
      · refine ⟨PyErr.structError, ?_⟩
        obtain ⟨x, hx⟩ := pyIndex_ok (show 1 < (b0 :: rest).length by omega)
        rw [hx, except_ok_bind]
        have hdrop : (((b0 :: rest).drop 2).length) ≠ 4 := by
          simp
          simp [hlc] at h1 hlen6
          omega
        unfold unpack_f32_big
        rw [if_neg hdrop, except_error_bind]
    obtain ⟨e, he⟩ := hex
    refine ⟨e, ?_⟩
    unfold read_result
    rw [hgm2, except_ok_bind]
    simp [h, except_ok_bind, except_pure, except_error_bind, he]

/-- C3 (witness): the amended claim instantiated at the 1-byte type-1 payload
`[0x20]`. -/
theorem C3_short_payload_raises_witness :
    ∃ e, read_result [0x20] = Except.error e :=
  C3_short_payload_raises [0x20] 1 (by decide) (by decide) (by decide)

/-- C4 (code bug): the claim's position/speed/current formulas match the code,
but the two temperature bytes are decoded through `(x - 50) / 2` twice — once
in the body (`motor_temp = (msg[6] - 50) / 2`) and once more through the
helper `get_temp` — so byte value 50 decodes to `-25.0`, not the `0.0` the
single `(raw - 50) / 2.0` formula gives.  Evaluation at the failing 8-byte
type-1 input `[0x20, 0, 0, 0, 0, 0, 50, 50]`: position, speed and current are
as claimed, temperature and MOS are `-25`. -/
theorem C4_temperature_double_scaled :
    read_result [0x20, 0, 0, 0, 0, 0, 50, 50] =
      Except.ok (some (DecodeResult.posSpeed
        ⟨1, "No Errors", -25/2, -18, -70, -25, -25⟩)) ∧
    ((-25 : ℚ) ≠ (50 - 50) / 2) := by
  constructor
  · have hex : position_speed_message [0x20, 0, 0, 0, 0, 0, 50, 50] =
        Except.ok ⟨1, "No Errors", -25/2, -18, -70, -25, -25⟩ := by
      unfold position_speed_message
      simp [pyIndex, pySlice, from_bytes_big, dictGet, ERROR_MAP, except_ok_bind, except_pure]
      norm_num [PosSpeedResult.mk.injEq]
    have hgm : get_message_type [0x20, 0, 0, 0, 0, 0, 50, 50] = Except.ok 1 := by
      unfold get_message_type
      simp [pyIndex, except_ok_bind, except_pure]
    unfold read_result
    rw [hgm, except_ok_bind]
    simp [except_ok_bind, except_pure, hex]
  · norm_num

/-- C5 (counterexample): the claim says types 2/3 return the temperature byte
raw with no scale; in fact the type-2 payload `[0x40, 0, 0, 0, 0, 0, 0, 7]`
with `msg[7] = 7` decodes Temperature as `(7 - 50) / 2 = -21.5`, not `7`. -/
theorem C5_counterexample_temperature_scaled :
    read_result [0x40, 0, 0, 0, 0, 0, 0, 7] =
      Except.ok (some (DecodeResult.position ⟨2, "No Errors", 0, 0, -43/2⟩)) ∧
    ((-43 / 2 : ℚ) ≠ 7) := by
  constructor
  · have hex : position_message [0x40, 0, 0, 0, 0, 0, 0, 7] =
        Except.ok ⟨2, "No Errors", 0, 0, -43/2⟩ := by
      unfold position_message
      simp [pyIndex, pySlice, from_bytes_big, unpack_f32_big, dictGet, ERROR_MAP,
        except_ok_bind, except_pure]
      norm_num [PositionResult.mk.injEq]
    have hgm : get_message_type [0x40, 0, 0, 0, 0, 0, 0, 7] = Except.ok 2 := by
      unfold get_message_type
      simp [pyIndex, except_ok_bind, except_pure]
    unfold read_result
    rw [hgm, except_ok_bind]
    simp [except_ok_bind, except_pure, hex]
  · norm_num

/-- C5 (amended): for every 8-byte type-2 or type-3 payload with a defined
error code, the Temperature value returned by `read_result` (through
`position_message` / `speed_message`) is `(msg[7] - 50) / 2.0` — the same
conversion the type-1 helper defines, applied once to the raw byte — not the
raw byte itself. -/
theorem C5_temperature_formula (b0 b1 b2 b3 b4 b5 b6 b7 : Nat) (es : String)
    (htag : b0 >>> 5 = 2 ∨ b0 >>> 5 = 3)
    (hE : ERROR_MAP (b0 &&& 0x1F) = some es) :
    ∃ r, read_result [b0, b1, b2, b3, b4, b5, b6, b7] = Except.ok (some r) ∧
      result_temperature r = some (((b7 : ℚ) - 50) / 2) := by
  rcases htag with htag | htag
  · have hpm : position_message [b0, b1, b2, b3, b4, b5, b6, b7] =
        Except.ok { messageType := 2
                    error := es
                    position := from_bytes_big [b1, b2, b3, b4]
                    current := (from_bytes_big [b5, b6] : ℚ) / 10
                    temperature := ((b7 : ℚ) - 50) / 2 } := by
      unfold position_message
      simp [pyIndex, pySlice, unpack_f32_big, except_ok_bind, except_pure, dictGet, hE]
    have hgm : get_message_type [b0, b1, b2, b3, b4, b5, b6, b7] = Except.ok 2 := by
      unfold get_message_type
      simp [pyIndex, except_ok_bind, except_pure, htag]
    refine ⟨DecodeResult.position
      { messageType := 2
        error := es
        position := from_bytes_big [b1, b2, b3, b4]
        current := (from_bytes_big [b5, b6] : ℚ) / 10
        temperature := ((b7 : ℚ) - 50) / 2 }, ?_, rfl⟩
    unfold read_result
    rw [hgm, except_ok_bind]
    simp [except_ok_bind, except_pure, hpm]
  · have hsm : speed_message [b0, b1, b2, b3, b4, b5, b6, b7] =
        Except.ok { messageType := 3
                    error := es
                    speed := from_bytes_big [b1, b2, b3, b4]
                    current := (from_bytes_big [b5, b6] : ℚ) / 10
                    temperature := ((b7 : ℚ) - 50) / 2 } := by
      unfold speed_message
      simp [pyIndex, pySlice, unpack_f32_big, except_ok_bind, except_pure, dictGet, hE]
    have hgm : get_message_type [b0, b1, b2, b3, b4, b5, b6, b7] = Except.ok 3 := by
      unfold get_message_type
      simp [pyIndex, except_ok_bind, except_pure, htag]
    refine ⟨DecodeResult.speed
      { messageType := 3
        error := es
        speed := from_bytes_big [b1, b2, b3, b4]
        current := (from_bytes_big [b5, b6] : ℚ) / 10
        temperature := ((b7 : ℚ) - 50) / 2 }, ?_, rfl⟩
    unfold read_result
    rw [hgm, except_ok_bind]
    simp [except_ok_bind, except_pure, hsm]

/-- C5 (witness): the amended claim instantiated at the type-2 payload
`[0x40, 0, 0, 0, 0, 0, 0, 7]`. -/
theorem C5_temperature_formula_witness :
    ∃ r, read_result [0x40, 0, 0, 0, 0, 0, 0, 7] = Except.ok (some r) ∧
      result_temperature r = some ((((7 : Nat) : ℚ) - 50) / 2) :=
  C5_temperature_formula 0x40 0 0 0 0 0 0 7 "No Errors" (Or.inl (by decide)) (by decide)

/-- C6 (counterexample): the claim converts RPM via
`clamp(0,4095, round((rpm+18.0)/36.0 * 4095))`; at `speed = -17` the exact
value is `113.75`, which every rounding sends to `114`, but the code's `int()`
truncates to `113`: the speed field actually packed by
`force_position_hybrid_control 0 0 0 (-17) 0` is `113 ≠ 114`. -/
theorem C6_counterexample_truncation_vs_round :
    (force_position_hybrid_control 0 0 0 (-17) 0).getD 5 0 * 16 +
        (force_position_hybrid_control 0 0 0 (-17) 0).getD 6 0 / 16 = 113 ∧
    rpm_to_int_spec (-17) = 114 ∧ (113 : Int) ≠ 114 := by
  have hK : py_int ((0 : ℚ) * 4095 / 500) = 0 := by
    unfold py_int
    norm_num
  have hD : py_int ((0 : ℚ) * 511 / 5) = 0 := by
    unfold py_int
    norm_num
  have hP : degrees_to_int 0 = 32768 := by
    unfold degrees_to_int radians PY_MATH_PI py_int
    norm_num
  have hS : rpm_to_int (-17) = 113 := by
    unfold rpm_to_int py_int
    norm_num
  have hT : torque_to_int 0 = 2047 := by
    unfold torque_to_int py_int
    norm_num
  have hforce : force_position_hybrid_control 0 0 0 (-17) 0 =
      split_into_bytes
        (push_bits (push_bits (push_bits (push_bits (push_bits (push_bits 0 0 3)
          (py_int ((0 : ℚ) * 4095 / 500)) 12) (py_int ((0 : ℚ) * 511 / 5)) 9)
          (degrees_to_int 0) 16) (rpm_to_int (-17)) 12) (torque_to_int 0) 12) 8 true := rfl
  refine ⟨?_, ?_, by decide⟩
  · rw [hforce, hK, hD, hP, hS, hT]
    decide
  · unfold rpm_to_int_spec round_half_up
    norm_num

/-- C6 (amended): for every input, `force_position_hybrid_control` packs the
position as `clamp(0,65536, trunc((radians(deg)+12.5)/25.0 * 65536))` masked
to its 16-bit field (bytes 3-4; the clamp ceiling 65536 wraps to 0 under the
16-bit mask), the speed as `clamp(0,4095, trunc((rpm+18.0)/36.0 * 4095))`
(byte 5 and the high nibble of byte 6), and the feed-forward torque as
`clamp(0,4095, trunc((torque+150)/300 * 4095))` (low nibble of byte 6 and
byte 7) — with Python `int()` truncation toward zero, not rounding. -/
theorem C6_hybrid_field_encoding (kp kd position speed torque_ff : ℚ) :
    (force_position_hybrid_control kp kd position speed torque_ff).getD 3 0 * 256 +
        (force_position_hybrid_control kp kd position speed torque_ff).getD 4 0 =
      degrees_to_int position % 65536 ∧
    (force_position_hybrid_control kp kd position speed torque_ff).getD 5 0 * 16 +
        (force_position_hybrid_control kp kd position speed torque_ff).getD 6 0 / 16 =
      rpm_to_int speed ∧
    (force_position_hybrid_control kp kd position speed torque_ff).getD 6 0 % 16 * 256 +
        (force_position_hybrid_control kp kd position speed torque_ff).getD 7 0 =
      torque_to_int torque_ff := by
  set K := py_int (kp * 4095 / 500) with hK
  set D := py_int (kd * 511 / 5) with hD
  set P := degrees_to_int position with hP
  set S := rpm_to_int speed with hS
  set T := torque_to_int torque_ff with hT
  have hforce : force_position_hybrid_control kp kd position speed torque_ff =
      split_into_bytes
        (push_bits (push_bits (push_bits (push_bits (push_bits (push_bits 0 0 3) K 12) D 9)
          P 16) S 12) T 12) 8 true := rfl
  have hc1 : push_bits 0 0 3 = 0 := by
    rw [push_bits_eq 0 0 3 le_rfl]
    norm_num
  have hc2 : push_bits (push_bits 0 0 3) K 12 = K % 4096 := by
    rw [hc1, push_bits_eq 0 K 12 le_rfl]
    norm_num
  have hn2 : (0 : Int) ≤ K % 4096 := Int.emod_nonneg _ (by norm_num)
  have hc3 : push_bits (push_bits (push_bits 0 0 3) K 12) D 9 = (K % 4096) * 512 + D % 512 := by
    rw [hc2, push_bits_eq _ D 9 hn2]
    norm_num
  generalize hAg : (K % 4096) * 512 + D % 512 = A at hc3
  have hn3 : (0 : Int) ≤ A := by
    rw [← hAg]
    have h1 := Int.emod_nonneg D (show (512:Int) ≠ 0 by norm_num)
    have h2 := Int.emod_nonneg K (show (4096:Int) ≠ 0 by norm_num)
    positivity
  have hc4 : push_bits (push_bits (push_bits (push_bits 0 0 3) K 12) D 9) P 16 =
      A * 65536 + P % 65536 := by
    rw [hc3, push_bits_eq _ P 16 hn3]
    norm_num
  have hn4 : (0 : Int) ≤ A * 65536 + P % 65536 := by
    have := Int.emod_nonneg P (show (65536:Int) ≠ 0 by norm_num)
    positivity
  have hc5 : push_bits (push_bits (push_bits (push_bits (push_bits 0 0 3) K 12) D 9) P 16) S 12 =
      (A * 65536 + P % 65536) * 4096 + S % 4096 := by
    rw [hc4, push_bits_eq _ S 12 hn4]
    norm_num
  have hS0 : (0 : Int) ≤ S := le_max_left 0 _
  have hS1 : S ≤ 4095 := max_le (by norm_num) (min_le_left _ _)
  have hSmod : S % 4096 = S := Int.emod_eq_of_lt hS0 (by omega)
  rw [hSmod] at hc5
  have hn5 : (0 : Int) ≤ (A * 65536 + P % 65536) * 4096 + S := by positivity
  have hc6 : push_bits (push_bits (push_bits (push_bits (push_bits (push_bits 0 0 3) K 12) D 9)
        P 16) S 12) T 12 =
      ((A * 65536 + P % 65536) * 4096 + S) * 4096 + T % 4096 := by
    rw [hc5, push_bits_eq _ T 12 hn5]
    norm_num
  have hT0 : (0 : Int) ≤ T := le_max_left 0 _
  have hT1 : T ≤ 4095 := max_le (by norm_num) (min_le_left _ _)
  have hTmod : T % 4096 = T := Int.emod_eq_of_lt hT0 (by omega)
  rw [hTmod] at hc6
  rw [hforce, hc6, split_into_bytes_eight]
  have hpow : (256 : Int) ^ 4 = 4294967296 ∧ (256 : Int) ^ 3 = 16777216 ∧
      (256 : Int) ^ 2 = 65536 ∧ (256 : Int) ^ 1 = 256 ∧ (256 : Int) ^ 0 = 1 := by
    norm_num
  obtain ⟨hp4, hp3, hp2, hp1, hp0⟩ := hpow
  refine ⟨?_, ?_, ?_⟩
  · simp only [List.getD_cons_succ, List.getD_cons_zero, hp4, hp3]
    omega
  · simp only [List.getD_cons_succ, List.getD_cons_zero, hp2, hp1]
    omega
  · simp only [List.getD_cons_succ, List.getD_cons_zero, hp1, hp0, Int.ediv_one]
    omega

/-- C7 (counterexample): the claim says the `little_endian` flag requests
least-significant-byte-first output; in fact `split_into_bytes 258 2` with
`little_endian = true` (the Python default) yields `[1, 2]` — most
significant byte first — not `[2, 1]`. -/
theorem C7_counterexample_flag_inverted :
    split_into_bytes 258 2 true = [1, 2] ∧ ([1, 2] : List Int) ≠ [2, 1] := by
  decide

/-- C7 (amended): for every accumulator value and length, `split_into_bytes`
extracts `length` bytes of 8 bits each from the low end of the accumulator;
it emits them least-significant byte first when `little_endian = false`, and
in reversed (most-significant-byte-first) order when `little_endian = true`,
which is the default — the flag's name is inverted relative to the byte order
it produces. -/
theorem C7_split_into_bytes_order (c : Int) (n : Nat) :
    split_into_bytes c n false = (List.range n).map (fun i => c / 256 ^ i % 256) ∧
    split_into_bytes c n true = ((List.range n).map (fun i => c / 256 ^ i % 256)).reverse :=
  split_into_bytes_eq c n

/-- C8 (confirmed): every command encoder returns a byte list of exactly its
declared length, for all argument values: 8 bytes for `set_position_control`
and `force_position_hybrid_control`, 7 for `set_speed_control`, 3 for
`set_current_torque_control`, 4 for `set_zero_position`, and 2 for each of
the four query commands. -/
theorem C8_encoded_lengths :
    (∀ p mm ms mc mr, (set_position_control p mm ms mc mr).length = 8) ∧
    (∀ s mm c mr, (set_speed_control s mm c mr).length = 7) ∧
    (∀ v cs mm mr, (set_current_torque_control v cs mm mr).length = 3) ∧
    (∀ mid, (set_zero_position mid).length = 4) ∧
    get_motor_pos.length = 2 ∧
    get_motor_speed.length = 2 ∧
    get_motor_current.length = 2 ∧
    get_motor_power.length = 2 ∧
    (∀ kp kd p s t, (force_position_hybrid_control kp kd p s t).length = 8) := by
  refine ⟨?_, ?_, ?_, ?_, ?_, ?_, ?_, ?_, ?_⟩
  · intro p mm ms mc mr
    exact split_into_bytes_length _ 8 true
  · intro s mm c mr
    exact split_into_bytes_length _ 7 true
  · intro v cs mm mr
    exact split_into_bytes_length _ 3 true
  · intro mid
    exact split_into_bytes_length _ 4 true
  · exact split_into_bytes_length _ 2 true
  · exact split_into_bytes_length _ 2 true
  · exact split_into_bytes_length _ 2 true
  · exact split_into_bytes_length _ 2 true
  · intro kp kd p s t
    exact split_into_bytes_length _ 8 true

/-- C9 (confirmed): for every nonnegative accumulator `a`, every integer
`d` of either sign, and every width `w`,
`push_bits a d w = a * 2 ^ w + (d mod 2 ^ w)`; in particular the result
depends on `d` only through `d mod 2 ^ w`, so out-of-range values are
truncated to the low `w` bits, never rejected. -/
theorem C9_push_bits_arithmetic (a d : Int) (w : Nat) (ha : 0 ≤ a) :
    push_bits a d w = a * 2 ^ w + d % 2 ^ w :=
  push_bits_eq a d w ha

/-- C9 (witness): the characterization instantiated at `a = 3`, `d = -5`,
`w = 4`: `push_bits 3 (-5) 4 = 48 + 11 = 59`. -/
theorem C9_push_bits_arithmetic_witness :
    push_bits 3 (-5) 4 = 3 * 2 ^ 4 + (-5 : Int) % 2 ^ 4 ∧
    push_bits 3 (-5) 4 = 59 := by
  have h := C9_push_bits_arithmetic 3 (-5) 4 (by norm_num)
  refine ⟨h, ?_⟩
  rw [h]
  decide

/-- C10 (confirmed): for every payload classified as type 5 with defined error
and query codes, decoding succeeds exactly when the payload is 6 bytes long:
the data field is then the big-endian 32-bit word over all bytes after
index 2, and any other length (shorter, or longer such as an 8-byte padded
frame) raises `struct.error` from the exact-4-byte `unpack` of the tail. -/
theorem C10_type5_exact_length (b0 b1 : Nat) (rest : List Nat) (es qs : String)
    (htag : b0 >>> 5 = 5) (hE : ERROR_MAP (b0 &&& 0x1F) = some es)
    (hQ : QUERY_MAP b1 = some qs) :
    ((b0 :: b1 :: rest).length = 6 →
      read_result (b0 :: b1 :: rest) =
        Except.ok (some (DecodeResult.custom
          ⟨5, es, qs, from_bytes_big rest⟩))) ∧
    ((b0 :: b1 :: rest).length ≠ 6 →
      read_result (b0 :: b1 :: rest) = Except.error PyErr.structError) := by
  have hgm : get_message_type (b0 :: b1 :: rest) = Except.ok 5 := by
    unfold get_message_type
    simp [pyIndex, except_ok_bind, except_pure, htag]
  have hdrop : (b0 :: b1 :: rest).drop 2 = rest := rfl
  constructor
  · intro hlen
    have hr4 : rest.length = 4 := by
      simp at hlen
      omega
    have hcm : custom_message (b0 :: b1 :: rest) =
        Except.ok ⟨5, es, qs, from_bytes_big rest⟩ := by
      unfold custom_message
      simp [pyIndex, hdrop, unpack_f32_big, hr4, except_ok_bind, except_pure, dictGet, hE, hQ]
    unfold read_result
    rw [hgm, except_ok_bind]
    simp [except_ok_bind, except_pure, hcm]
  · intro hlen
    have hr4 : rest.length ≠ 4 := by
      simp at hlen ⊢
      omega
    have hcm : custom_message (b0 :: b1 :: rest) = Except.error PyErr.structError := by
      unfold custom_message
      simp [pyIndex, hdrop, unpack_f32_big, hr4, except_ok_bind, except_pure, except_error_bind]
    unfold read_result
    rw [hgm, except_ok_bind]
    simp [except_ok_bind, except_pure, except_error_bind, hcm]

/-- C10 (witness): the spec's own example vector
`[0xA0, 0x01, 0x39, 0xF7, 0x24, 0x7D]` — type 5, "No Errors", query "Angle",
data word `0x39F7247D`. -/
theorem C10_type5_exact_length_witness :
    read_result [0xA0, 0x01, 0x39, 0xF7, 0x24, 0x7D] =
      Except.ok (some (DecodeResult.custom
        ⟨5, "No Errors", "Angle", from_bytes_big [0x39, 0xF7, 0x24, 0x7D]⟩)) :=
  (C10_type5_exact_length 0xA0 0x01 [0x39, 0xF7, 0x24, 0x7D] "No Errors" "Angle"
    (by decide) (by decide) (by decide)).1 (by decide)
